import Mathlib

/-!
A shallow embedding of the `ioprio` crate (`src/lib.rs`): Linux I/O priority
masks. The 16-bit mask packs a 3-bit class kind (bits 15:13) and 13 bits of
per-class data (bits 12:0). We model `u16`/`u8` values as `Nat` (no arithmetic
here can overflow: kinds are ≤ 3 and level data is bounded by hypotheses
mirroring the `u8` field width), Rust `Option` as `Option`, and Rust
`std::cmp::Ordering` as Lean's `Ordering` (`reverse` is `Ordering.swap`,
`then_with` is `Ordering.then`).
-/

namespace Ioprio

/-- Struct `Priority`: wraps the raw 16-bit I/O priority mask (field `inner: u16`). -/
structure Priority where
  inner : Nat
deriving DecidableEq

/-- Struct `RtPriorityLevel`: a real-time level, wrapping a `u8` (valid range 0–7). -/
structure RtPriorityLevel where
  inner : Nat
deriving DecidableEq

/-- Struct `BePriorityLevel`: a best-effort level, wrapping a `u8` (valid range 0–7). -/
structure BePriorityLevel where
  inner : Nat
deriving DecidableEq

/-- The `Class` enum: `Realtime(RtPriorityLevel)`, `BestEffort(BePriorityLevel)`, `Idle`. -/
inductive Class where
  | Realtime (level : RtPriorityLevel)
  | BestEffort (level : BePriorityLevel)
  | Idle
deriving DecidableEq

/-- Constant `RtPriorityLevel::highest`, the constant 0. -/
def RtPriorityLevel.highest : RtPriorityLevel := ⟨0⟩

/-- Constant `RtPriorityLevel::lowest`, the constant 7. -/
def RtPriorityLevel.lowest : RtPriorityLevel := ⟨7⟩

/-- Constructor `RtPriorityLevel::from_level`: wrap a level, `None` if it is 8 or more. -/
def RtPriorityLevel.from_level (level : Nat) : Option RtPriorityLevel :=
  if level < 8 then some ⟨level⟩ else none

/-- Accessor `RtPriorityLevel::level`: the underlying integer. -/
def RtPriorityLevel.level (self : RtPriorityLevel) : Nat := self.inner

/-- Method `RtPriorityLevel::data` (private): the level widened to `u16`. -/
def RtPriorityLevel.data (self : RtPriorityLevel) : Nat := self.inner

/-- Impl `Ord for RtPriorityLevel`: `Ord::cmp(&self.data(), &other.data()).reverse()`. -/
def RtPriorityLevel.cmp (self other : RtPriorityLevel) : Ordering :=
  (compare self.data other.data).swap

/-- Constant `BePriorityLevel::highest`, the constant 0. -/
def BePriorityLevel.highest : BePriorityLevel := ⟨0⟩

/-- Constant `BePriorityLevel::fallback`, the constant 4. -/
def BePriorityLevel.fallback : BePriorityLevel := ⟨4⟩

/-- Constant `BePriorityLevel::lowest`, the constant 7. -/
def BePriorityLevel.lowest : BePriorityLevel := ⟨7⟩

/-- Constructor `BePriorityLevel::from_level`: wrap a level, `None` if it exceeds 7. -/
def BePriorityLevel.from_level (level : Nat) : Option BePriorityLevel :=
  if level < 8 then some ⟨level⟩ else none

/-- Accessor `BePriorityLevel::level`: the underlying integer. -/
def BePriorityLevel.level (self : BePriorityLevel) : Nat := self.inner

/-- Method `BePriorityLevel::data` (private): the level widened to `u16`. -/
def BePriorityLevel.data (self : BePriorityLevel) : Nat := self.inner

/-- Impl `Ord for BePriorityLevel`: `Ord::cmp(&self.data(), &other.data()).reverse()`. -/
def BePriorityLevel.cmp (self other : BePriorityLevel) : Ordering :=
  (compare self.data other.data).swap

/-- Method `Class::rel_priority` (private): Realtime ↦ 2, BestEffort ↦ 1, Idle ↦ 0. -/
def Class.rel_priority : Class → Nat
  | .Realtime _ => 2
  | .BestEffort _ => 1
  | .Idle => 0

/-- Method `Class::kind` (private): Realtime ↦ 1, BestEffort ↦ 2, Idle ↦ 3. -/
def Class.kind : Class → Nat
  | .Realtime _ => 1
  | .BestEffort _ => 2
  | .Idle => 3

/-- Method `Class::data` (private): the contained level's data, 0 for Idle. -/
def Class.data : Class → Nat
  | .Realtime rt => rt.data
  | .BestEffort be => be.data
  | .Idle => 0

/-- Impl `Ord for Class`: compare `rel_priority` first, then the contained levels.
The Rust source's `unreachable!()` arm (distinct constructors with equal
`rel_priority`) is modelled as `.eq`; it is never consulted, since
`Ordering.then` only uses the second argument when `rel_priority` compares
equal, which forces the constructors to coincide. -/
def Class.cmp (self other : Class) : Ordering :=
  (compare self.rel_priority other.rel_priority).then
    (match self, other with
     | .Realtime lhs, .Realtime rhs => lhs.cmp rhs
     | .BestEffort lhs, .BestEffort rhs => lhs.cmp rhs
     | .Idle, .Idle => .eq
     | _, _ => .eq)

/-- The `u16 → u8` conversion `data.try_into().ok()`: `None` when ≥ 256. -/
def try_into_u8 (n : Nat) : Option Nat :=
  if n < 256 then some n else none

/-- Constructor `Priority::new`: encode a class as `(kind << 13) | data`. -/
def Priority.new (c : Class) : Priority :=
  ⟨(c.kind <<< 13) ||| c.data⟩

/-- Method `Priority::class`: decode `kind = inner >> 13`, `data = inner & 0x1FFF`;
kinds 1 and 2 demand `data` to convert to `u8` and pass `from_level`, kind 3
is `Idle` regardless of data, all other kinds decode to `None`. -/
def Priority.class? (self : Priority) : Option Class :=
  let class_raw := self.inner >>> 13
  let data := self.inner &&& 0x1FFF
  match class_raw with
  | 1 => (try_into_u8 data).bind fun d => (RtPriorityLevel.from_level d).map Class.Realtime
  | 2 => (try_into_u8 data).bind fun d => (BePriorityLevel.from_level d).map Class.BestEffort
  | 3 => some Class.Idle
  | _ => none

/-- Constant `Priority::standard`: the raw value 0. -/
def Priority.standard : Priority := ⟨0⟩

/-- Constructor `Priority::from_inner`: wrap a raw mask unchecked. -/
def Priority.from_inner (inner : Nat) : Priority := ⟨inner⟩

/-- Impl `PartialOrd for Priority`: `Some(Ord::cmp(&self.class()?, &other.class()?))`. -/
def Priority.partial_cmp (self other : Priority) : Option Ordering :=
  match self.class?, other.class? with
  | some a, some b => some (a.cmp b)
  | _, _ => none

/-- A `Class` as constructible in Rust: level fields stay within 0–7, the
only values the (private-field) level types ever hold. -/
def Class.valid : Class → Bool
  | .Realtime l => l.inner < 8
  | .BestEffort l => l.inner < 8
  | .Idle => true

/-- The `Target` enum: `Process(Pid)`, `ProcessGroup(Pid)`, `User(Uid)`.
`Pid` wraps an `i32` (modelled as `Int`), `Uid` wraps a `u32` (modelled as `Nat`). -/
inductive Target where
  | Process (pid : Int)
  | ProcessGroup (pgid : Int)
  | User (uid : Nat)
deriving DecidableEq

/-- The `u32 → i32` cast `uid.as_raw() as libc::c_int` (two's-complement wrap). -/
def u32_as_i32 (n : Nat) : Int :=
  if n % 4294967296 < 2147483648 then ((n % 4294967296 : Nat) : Int)
  else ((n % 4294967296 : Nat) : Int) - 4294967296

/-- Function `target_which_who`: resolve a target to the `[which, who]` syscall pair. -/
def target_which_who : Target → Int × Int
  | .Process pid => (1, pid)
  | .ProcessGroup pgid => (2, pgid)
  | .User uid => (3, u32_as_i32 uid)

/-! ### Helper lemmas about the bit-level codec -/

theorem and_mask13_eq_mod (v : Nat) : v &&& 0x1FFF = v % 8192 := by
  have h : (0x1FFF : Nat) = 2 ^ 13 - 1 := by norm_num
  rw [h, Nat.and_pow_two_sub_one_eq_mod]

theorem shiftRight13_eq_div (v : Nat) : v >>> 13 = v / 8192 := by
  rw [Nat.shiftRight_eq_div_pow]

theorem shiftLeft13_or_eq (k d : Nat) (h : d < 8192) : (k <<< 13) ||| d = k * 8192 + d := by
  have hd : d < 2 ^ 13 := by omega
  have h1 := (Nat.mul_add_lt_is_or hd k).symm
  rw [Nat.shiftLeft_eq, Nat.mul_comm k (2 ^ 13), h1, Nat.mul_comm (2 ^ 13) k]

theorem rt_decode_arm (d : Nat) :
    ((try_into_u8 d).bind fun x => (RtPriorityLevel.from_level x).map Class.Realtime)
      = if d < 8 then some (Class.Realtime ⟨d⟩) else none := by
  unfold try_into_u8 RtPriorityLevel.from_level
  split_ifs <;> simp_all <;> omega

theorem be_decode_arm (d : Nat) :
    ((try_into_u8 d).bind fun x => (BePriorityLevel.from_level x).map Class.BestEffort)
      = if d < 8 then some (Class.BestEffort ⟨d⟩) else none := by
  unfold try_into_u8 BePriorityLevel.from_level
  split_ifs <;> simp_all <;> omega

/-- Full characterization of `Priority.class?` as an if-chain on kind and data. -/
theorem class?_eq (p : Priority) :
    p.class? =
      (if p.inner >>> 13 = 1 ∧ p.inner &&& 0x1FFF < 8
       then some (Class.Realtime ⟨p.inner &&& 0x1FFF⟩)
       else if p.inner >>> 13 = 2 ∧ p.inner &&& 0x1FFF < 8
       then some (Class.BestEffort ⟨p.inner &&& 0x1FFF⟩)
       else if p.inner >>> 13 = 3 then some Class.Idle
       else none) := by
  unfold Priority.class?
  rcases hk : p.inner >>> 13 with _ | _ | _ | _ | k <;>
    simp only [hk, rt_decode_arm, be_decode_arm] <;>
    split_ifs <;> simp_all

theorem roundtrip_aux (c : Class) (h : c.valid = true) :
    (Priority.new c).class? = some c := by
  cases c with
  | Realtime l =>
    obtain ⟨i⟩ := l
    have hi : i < 8 := by simpa [Class.valid] using h
    interval_cases i <;> decide
  | BestEffort l =>
    obtain ⟨i⟩ := l
    have hi : i < 8 := by simpa [Class.valid] using h
    interval_cases i <;> decide
  | Idle => decide

/-! ### Claim theorems -/

/-- C1: for every `Class` value c built from valid levels (`Realtime l` or
`BestEffort l` with `0 ≤ l ≤ 7`, or `Idle`), decoding the priority produced by
encoding it returns exactly `c`: `(Priority.new c).class? = some c`. -/
theorem claim_roundtrip_valid_class (c : Class) (h : c.valid = true) :
    (Priority.new c).class? = some c :=
  roundtrip_aux c h

theorem claim_roundtrip_valid_class_witness :
    (Class.Realtime ⟨3⟩).valid = true ∧
      (Priority.new (Class.Realtime ⟨3⟩)).class? = some (Class.Realtime ⟨3⟩) :=
  ⟨by decide, claim_roundtrip_valid_class (Class.Realtime ⟨3⟩) (by decide)⟩

/-- C5: the ordering `Class.cmp` first compares by the fixed rank Realtime > BestEffort >
Idle regardless of levels; two values of the same class compare by the
contained level's own (reversed) ordering; two Idle values compare equal. -/
theorem claim_class_ordering :
    (∀ lr lb, (Class.Realtime lr).cmp (Class.BestEffort lb) = .gt)
    ∧ (∀ lr, (Class.Realtime lr).cmp Class.Idle = .gt)
    ∧ (∀ lb, (Class.BestEffort lb).cmp Class.Idle = .gt)
    ∧ (∀ lb lr, (Class.BestEffort lb).cmp (Class.Realtime lr) = .lt)
    ∧ (∀ lr, Class.Idle.cmp (Class.Realtime lr) = .lt)
    ∧ (∀ lb, Class.Idle.cmp (Class.BestEffort lb) = .lt)
    ∧ (∀ l₁ l₂, (Class.Realtime l₁).cmp (Class.Realtime l₂) = l₁.cmp l₂)
    ∧ (∀ l₁ l₂, (Class.BestEffort l₁).cmp (Class.BestEffort l₂) = l₁.cmp l₂)
    ∧ Class.Idle.cmp Class.Idle = .eq :=
  ⟨fun _ _ => rfl, fun _ => rfl, fun _ => rfl, fun _ _ => rfl, fun _ => rfl,
   fun _ => rfl, fun _ _ => rfl, fun _ _ => rfl, rfl⟩

/-- C6: for two levels of the same type, the comparison is `.lt` iff the wrapped
integer of `a` is numerically greater than that of `b`; the ordering is the
exact swap of the raw integer comparison. -/
theorem claim_level_ordering_reversed :
    (∀ a b : RtPriorityLevel,
      (a.cmp b = .lt ↔ b.level < a.level) ∧ a.cmp b = (compare a.level b.level).swap)
    ∧ (∀ a b : BePriorityLevel,
      (a.cmp b = .lt ↔ b.level < a.level) ∧ a.cmp b = (compare a.level b.level).swap) := by
  constructor
  · intro a b
    refine ⟨?_, rfl⟩
    unfold RtPriorityLevel.cmp RtPriorityLevel.data RtPriorityLevel.level
    cases h : compare a.inner b.inner <;>
      simp_all [Nat.compare_eq_lt, Nat.compare_eq_eq, Nat.compare_eq_gt, Ordering.swap] <;>
      omega
  · intro a b
    refine ⟨?_, rfl⟩
    unfold BePriorityLevel.cmp BePriorityLevel.data BePriorityLevel.level
    cases h : compare a.inner b.inner <;>
      simp_all [Nat.compare_eq_lt, Nat.compare_eq_eq, Nat.compare_eq_gt, Ordering.swap] <;>
      omega

/-- C7: the call `from_level n` succeeds, wrapping `n`, iff `0 ≤ n ≤ 7`, and `level`
returns the wrapped value unchanged; in particular `from_level 7` succeeds and
`from_level 8` fails, for both level types. -/
theorem claim_from_level_contract :
    (∀ n : Nat, RtPriorityLevel.from_level n = if n ≤ 7 then some ⟨n⟩ else none)
    ∧ (∀ n l, RtPriorityLevel.from_level n = some l → l.level = n)
    ∧ RtPriorityLevel.from_level 7 = some ⟨7⟩ ∧ RtPriorityLevel.from_level 8 = none
    ∧ (∀ n : Nat, BePriorityLevel.from_level n = if n ≤ 7 then some ⟨n⟩ else none)
    ∧ (∀ n l, BePriorityLevel.from_level n = some l → l.level = n)
    ∧ BePriorityLevel.from_level 7 = some ⟨7⟩ ∧ BePriorityLevel.from_level 8 = none := by
  refine ⟨fun n => ?_, fun n l h => ?_, by decide, by decide,
          fun n => ?_, fun n l h => ?_, by decide, by decide⟩
  · unfold RtPriorityLevel.from_level
    split_ifs <;> simp_all <;> omega
  · unfold RtPriorityLevel.from_level at h
    split_ifs at h
    cases h
    rfl
  · unfold BePriorityLevel.from_level
    split_ifs <;> simp_all <;> omega
  · unfold BePriorityLevel.from_level at h
    split_ifs at h
    cases h
    rfl

theorem claim_from_level_contract_witness :
    RtPriorityLevel.from_level 5 = some ⟨5⟩ ∧ (5 : Nat) ≤ 7 ∧
      (RtPriorityLevel.mk 5).level = 5 :=
  ⟨by decide, by decide, claim_from_level_contract.2.1 5 ⟨5⟩ (by decide)⟩

/-- C8: the value `Priority.standard` has raw inner value 0 and decodes to no class. -/
theorem claim_standard_priority :
    Priority.standard.inner = 0 ∧ Priority.standard.class? = none := by
  decide

/-- C10: a `Priority` that fails to decode is not comparable to itself:
`partial_cmp p p = none` even though `p = p` holds, so the partial order is
irreflexive on undecodable values and inconsistent with equality. -/
theorem claim_partial_cmp_irreflexive_on_invalid (p : Priority)
    (h : p.class? = none) : p.partial_cmp p = none ∧ p = p := by
  refine ⟨?_, rfl⟩
  unfold Priority.partial_cmp
  rw [h]

theorem claim_partial_cmp_irreflexive_on_invalid_witness :
    Priority.standard.class? = none ∧
      (Priority.standard.partial_cmp Priority.standard = none ∧
        Priority.standard = Priority.standard) :=
  ⟨by decide, claim_partial_cmp_irreflexive_on_invalid Priority.standard (by decide)⟩

/-- C2: for every 16-bit value v, decoding yields `Realtime ⟨data⟩` iff the
top 3 bits are 1 and the low 13 bits are < 8, `BestEffort ⟨data⟩` iff the top
3 bits are 2 and the low 13 bits are < 8, `Idle` iff the top 3 bits are 3
(data ignored), and `none` otherwise (kinds 0 and 4–7, or out-of-range data). -/
theorem claim_decode_characterization (v : Nat) (hv : v < 65536) :
    (Priority.from_inner v).class? =
      (if v >>> 13 = 1 ∧ v &&& 0x1FFF < 8 then some (Class.Realtime ⟨v &&& 0x1FFF⟩)
       else if v >>> 13 = 2 ∧ v &&& 0x1FFF < 8 then some (Class.BestEffort ⟨v &&& 0x1FFF⟩)
       else if v >>> 13 = 3 then some Class.Idle
       else none) :=
  class?_eq (Priority.from_inner v)

theorem claim_decode_characterization_witness :
    (0x200A : Nat) < 65536 ∧
      (Priority.from_inner 0x200A).class? =
        (if (0x200A : Nat) >>> 13 = 1 ∧ (0x200A : Nat) &&& 0x1FFF < 8
         then some (Class.Realtime ⟨(0x200A : Nat) &&& 0x1FFF⟩)
         else if (0x200A : Nat) >>> 13 = 2 ∧ (0x200A : Nat) &&& 0x1FFF < 8
         then some (Class.BestEffort ⟨(0x200A : Nat) &&& 0x1FFF⟩)
         else if (0x200A : Nat) >>> 13 = 3 then some Class.Idle
         else none) :=
  ⟨by decide, claim_decode_characterization 0x200A (by decide)⟩

/-- C4: the value `partial_cmp a b` is `some` of the comparison of the decoded classes
iff both priorities decode, and `none` whenever either fails to decode. -/
theorem claim_priority_partial_order (a b : Priority) :
    (∀ ca cb, a.class? = some ca → b.class? = some cb →
      a.partial_cmp b = some (ca.cmp cb))
    ∧ (a.class? = none ∨ b.class? = none → a.partial_cmp b = none) := by
  constructor
  · intro ca cb ha hb
    unfold Priority.partial_cmp
    rw [ha, hb]
  · intro h
    unfold Priority.partial_cmp
    rcases h with h | h
    · rw [h]
    · rw [h]
      cases a.class? <;> rfl

theorem claim_priority_partial_order_witness :
    ((Priority.new Class.Idle).class? = some Class.Idle ∧
      (Priority.new Class.Idle).partial_cmp (Priority.new Class.Idle) =
        some (Class.Idle.cmp Class.Idle)) ∧
      (Priority.standard.class? = none ∧
        Priority.standard.partial_cmp (Priority.new Class.Idle) = none) :=
  ⟨⟨by decide,
    (claim_priority_partial_order (Priority.new Class.Idle) (Priority.new Class.Idle)).1
      Class.Idle Class.Idle (by decide) (by decide)⟩,
   ⟨by decide,
    (claim_priority_partial_order Priority.standard (Priority.new Class.Idle)).2
      (Or.inl (by decide))⟩⟩

/-- C9: target resolution is the pure mapping `Process pid ↦ (1, pid)`,
`ProcessGroup pgid ↦ (2, pgid)`, `User uid ↦ (3, uid)`, with ids passed
through unvalidated; the uid is preserved modulo the `u32 → i32` bit cast. -/
theorem claim_target_resolution :
    (∀ p : Int, target_which_who (Target.Process p) = (1, p))
    ∧ (∀ p : Int, target_which_who (Target.ProcessGroup p) = (2, p))
    ∧ (∀ u : Nat, u < 2147483648 → target_which_who (Target.User u) = (3, (u : Int)))
    ∧ (∀ u : Nat, u < 4294967296 →
        (target_which_who (Target.User u)).2 % 4294967296 = (u : Int)) := by
  refine ⟨fun p => rfl, fun p => rfl, fun u hu => ?_, fun u hu => ?_⟩
  · simp only [target_which_who, u32_as_i32]
    rw [Nat.mod_eq_of_lt (by omega), if_pos hu]
  · simp only [target_which_who, u32_as_i32]
    rw [Nat.mod_eq_of_lt hu]
    split_ifs with h2 <;> omega

theorem claim_target_resolution_witness :
    (1000 : Nat) < 2147483648 ∧
      target_which_who (Target.User 1000) = (3, (1000 : Int)) :=
  ⟨by decide, claim_target_resolution.2.2.1 1000 (by decide)⟩

/-- C3 as stated is false: the pattern `0x6001` decodes to `Idle`, but `Idle`
re-encodes to `0x6000 ≠ 0x6001`, so encode and decode are not mutually
inverse on the set of patterns where `class?` succeeds. -/
theorem claim_bijection_counterexample :
    (Priority.from_inner 0x6001).class? = some Class.Idle ∧
      Priority.new Class.Idle ≠ Priority.from_inner 0x6001 ∧
      (Priority.new Class.Idle).inner = 0x6000 := by
  decide

/-- C3 amended: the encoding `Priority.new` is injective on `Class` values with valid
levels and decoding recovers every encoded class; re-encoding a decoded
pattern restores it exactly whenever the kind is not 3 (Idle): Idle patterns
with non-zero data bits decode to `Idle` but re-encode to `0x6000`. -/
theorem claim_bijection_amended :
    (∀ c₁ c₂ : Class, c₁.valid = true → c₂.valid = true →
        Priority.new c₁ = Priority.new c₂ → c₁ = c₂)
    ∧ (∀ c : Class, c.valid = true → (Priority.new c).class? = some c)
    ∧ (∀ (v : Nat) (c : Class), (Priority.from_inner v).class? = some c →
        v >>> 13 ≠ 3 → Priority.new c = Priority.from_inner v) := by
  refine ⟨?_, roundtrip_aux, ?_⟩
  · intro c₁ c₂ h₁ h₂ he
    have hr := roundtrip_aux c₁ h₁
    rw [he, roundtrip_aux c₂ h₂] at hr
    exact (Option.some_inj.mp hr).symm
  · intro v c hc hk
    rw [class?_eq] at hc
    simp only [Priority.from_inner] at hc
    have hdiv := shiftRight13_eq_div v
    have hmod := and_mask13_eq_mod v
    split_ifs at hc with h1 h2
    · obtain ⟨hk1, hd⟩ := h1
      rw [hdiv] at hk1
      injection hc with hc
      subst hc
      show Priority.mk ((1 <<< 13) ||| (v &&& 0x1FFF)) = Priority.mk v
      congr 1
      rw [shiftLeft13_or_eq 1 (v &&& 0x1FFF) (by omega), hmod]
      omega
    · obtain ⟨hk2, hd⟩ := h2
      rw [hdiv] at hk2
      injection hc with hc
      subst hc
      show Priority.mk ((2 <<< 13) ||| (v &&& 0x1FFF)) = Priority.mk v
      congr 1
      rw [shiftLeft13_or_eq 2 (v &&& 0x1FFF) (by omega), hmod]
      omega

theorem claim_bijection_amended_witness :
    ((Priority.from_inner 0x4004).class? = some (Class.BestEffort ⟨4⟩) ∧
      (0x4004 : Nat) >>> 13 ≠ 3) ∧
      Priority.new (Class.BestEffort ⟨4⟩) = Priority.from_inner 0x4004 :=
  ⟨⟨by decide, by decide⟩,
   claim_bijection_amended.2.2 0x4004 (Class.BestEffort ⟨4⟩) (by decide) (by decide)⟩

end Ioprio
